import Mathlib

/-!
Shallow embedding of the strategy-evaluation and auto-trading core of the
Trading-App repository: the Express strategy router
(server/sockets/marketData.js and its duplicated variant), the live trading
engine component (src/components/LiveTradingEngine.tsx) and the candle
utilities (src/utils/candleUtils.ts).

Prices, confidences and indicator values are modelled as rationals.  Where
JavaScript float arithmetic can reach NaN or Infinity on inputs the claims
care about (the server calculateRSI), the embedding models those outcomes
explicitly: `Option ℚ` with `none` standing for NaN, and the saturation at
100 produced by an infinite relative-strength ratio written out as the value
the float computation yields.  `Math.sqrt` is threaded through as an
abstract function parameter `sq : ℚ → ℚ` since its exact value never
decides a branch any claim depends on.  Wall-clock timestamps embedded in
log strings and in `Date.now()` payload fields are not modelled; log
entries keep the stable part of their message text.  Mutations of
`strategy.lastSignal` and `strategy.performance`, socket emissions and
console chatter (other than the fetch-failure console error, which is kept
as a separate `console` trace) are omitted: no claim depends on them.
-/

namespace TradingApp

inductive Action
  | BUY
  | SELL
  | HOLD
deriving DecidableEq

open Action

/-- A plain evaluator result: `{ action, confidence }` on the server path. -/
structure Sig where
  action : Action
  confidence : ℚ
deriving DecidableEq

/-- The loose `parameters` record attached to a strategy; one structure
holds the union of the per-type fields used by the four evaluators. -/
structure StratParams where
  fastPeriod : ℕ
  slowPeriod : ℕ
  rsiPeriod : ℕ
  oversoldLevel : ℚ
  overboughtLevel : ℚ
  shortPeriod : ℕ
  longPeriod : ℕ
  trendStrength : ℚ
  period : ℕ
  stdDev : ℚ
  meanReversion : Bool
  quantity : ℕ
  stopLoss : ℚ
  takeProfit : ℚ
deriving DecidableEq

/-- Server `calculateEMA`: seed at `prices[0]`, one output per input,
`ema = (price - ema) * 2/(period+1) + ema`. -/
def calculateEMA (prices : List ℚ) (period : ℕ) : List ℚ :=
  match prices with
  | [] => []
  | p :: rest =>
    let multiplier : ℚ := 2 / ((period : ℚ) + 1)
    List.scanl (fun ema price => (price - ema) * multiplier + ema) p rest

/-- Server `calculateSMA`: trailing-window averages, one output per index
`i ≥ period - 1` (indexed here by the window start `j = i - (period-1)`). -/
def calculateSMA (prices : List ℚ) (period : ℕ) : List ℚ :=
  (List.range (prices.length + 1 - period)).map
    (fun j => (((prices.drop j).take period).sum) / (period : ℚ))

/-- Server `calculateRSI`: gains/losses over consecutive deltas, averages of
the first `period` of each, `rs = avgGain / avgLoss`,
`100 - 100/(1+rs)`.  The float corner cases are modelled exactly:
`avgLoss = 0 ∧ avgGain ≠ 0` makes `rs` infinite and the result saturate at
`100`; `avgLoss = 0 ∧ avgGain = 0` makes `rs` NaN, modelled as `none`. -/
def calculateRSI (prices : List ℚ) (period : ℕ) : Option ℚ :=
  let changes := List.zipWith (fun a b => a - b) prices.tail prices
  let gains := changes.map (fun c => if c > 0 then c else 0)
  let losses := changes.map (fun c => if c < 0 then |c| else 0)
  let avgGain := (gains.take period).sum / (period : ℚ)
  let avgLoss := (losses.take period).sum / (period : ℚ)
  if avgLoss = 0 then
    if avgGain = 0 then none else some 100
  else
    some (100 - 100 / (1 + avgGain / avgLoss))

structure Band where
  upper : ℚ
  middle : ℚ
  lower : ℚ
deriving DecidableEq

/-- Server `calculateBollingerBands`: per SMA index, population variance of
the trailing window around the SMA value, `middle ± stdDev * sqrt var`. -/
def calculateBollingerBands (sq : ℚ → ℚ) (prices : List ℚ) (period : ℕ)
    (stdDev : ℚ) : List Band :=
  let sma := calculateSMA prices period
  (List.range sma.length).map (fun i =>
    let window := (prices.drop i).take period
    let mean := (sma[i]?).getD 0
    let variance := (window.map (fun price => (price - mean) ^ 2)).sum / (period : ℚ)
    let standardDeviation := sq variance
    { upper := mean + stdDev * standardDeviation
      middle := mean
      lower := mean - stdDev * standardDeviation })

/-- Server `evaluateEMACrossover`.  The four indexed reads are modelled with
`Option`; an out-of-range read is JavaScript `undefined`, whose comparisons
are all false, landing in the HOLD branch. -/
def evaluateEMACrossover (prices : List ℚ) (p : StratParams) : Sig :=
  if prices.length < p.slowPeriod then ⟨HOLD, 0⟩ else
  let fastEMA := calculateEMA prices p.fastPeriod
  let slowEMA := calculateEMA prices p.slowPeriod
  match fastEMA[fastEMA.length - 1]?, slowEMA[slowEMA.length - 1]?,
        fastEMA[fastEMA.length - 2]?, slowEMA[slowEMA.length - 2]? with
  | some currentFast, some currentSlow, some prevFast, some prevSlow =>
    if prevFast ≤ prevSlow ∧ currentFast > currentSlow then ⟨BUY, 85⟩
    else if prevFast ≥ prevSlow ∧ currentFast < currentSlow then ⟨SELL, 85⟩
    else ⟨HOLD, 0⟩
  | _, _, _, _ => ⟨HOLD, 0⟩

/-- Server `evaluateRSIOversold`.  A NaN RSI compares false on both sides
and falls through to HOLD. -/
def evaluateRSIOversold (prices : List ℚ) (p : StratParams) : Sig :=
  if prices.length < p.rsiPeriod + 1 then ⟨HOLD, 0⟩ else
  match calculateRSI prices p.rsiPeriod with
  | none => ⟨HOLD, 0⟩
  | some rsi =>
    if rsi ≤ p.oversoldLevel then ⟨BUY, max 60 (100 - rsi)⟩
    else if rsi ≥ p.overboughtLevel then ⟨SELL, max 60 (rsi - 50)⟩
    else ⟨HOLD, 0⟩

/-- Server `evaluateSMATrend`. -/
def evaluateSMATrend (prices : List ℚ) (p : StratParams) : Sig :=
  if prices.length < p.longPeriod then ⟨HOLD, 0⟩ else
  let shortSMA := calculateSMA prices p.shortPeriod
  let longSMA := calculateSMA prices p.longPeriod
  match shortSMA[shortSMA.length - 1]?, longSMA[longSMA.length - 1]?,
        prices[prices.length - 1]? with
  | some currentShort, some currentLong, some currentPrice =>
    let strength := |currentShort - currentLong| / currentPrice
    if currentShort > currentLong ∧ strength > p.trendStrength / 100 then
      ⟨BUY, min 90 (60 + strength * 1000)⟩
    else if currentShort < currentLong ∧ strength > p.trendStrength / 100 then
      ⟨SELL, min 90 (60 + strength * 1000)⟩
    else ⟨HOLD, 0⟩
  | _, _, _ => ⟨HOLD, 0⟩

/-- Server `evaluateBollingerBands`. -/
def evaluateBollingerBands (sq : ℚ → ℚ) (prices : List ℚ) (p : StratParams) : Sig :=
  if prices.length < p.period then ⟨HOLD, 0⟩ else
  let bands := calculateBollingerBands sq prices p.period p.stdDev
  match bands[bands.length - 1]?, prices[prices.length - 1]? with
  | some currentBand, some currentPrice =>
    if p.meanReversion then
      if currentPrice ≤ currentBand.lower then ⟨BUY, 80⟩
      else if currentPrice ≥ currentBand.upper then ⟨SELL, 80⟩
      else ⟨HOLD, 0⟩
    else
      if currentPrice > currentBand.upper then ⟨BUY, 75⟩
      else if currentPrice < currentBand.lower then ⟨SELL, 75⟩
      else ⟨HOLD, 0⟩
  | _, _ => ⟨HOLD, 0⟩

/-- `slice(-n)`: the last `n` elements (all of them when shorter). -/
def lastN {α : Type} (n : ℕ) (l : List α) : List α := l.drop (l.length - n)

/-! ### Assoc-list model of the JavaScript `Map`s (`priceHistory`,
`marketDataCache`, `strategies`).  `set` on a present key replaces the
value in place; on an absent key it appends, preserving insertion order. -/

def mapGet {α : Type} (m : List (String × α)) (k : String) : Option α :=
  (m.find? (fun kv => kv.1 == k)).map (fun kv => kv.2)

def mapSet {α : Type} (m : List (String × α)) (k : String) (v : α) :
    List (String × α) :=
  if (m.find? (fun kv => kv.1 == k)).isSome then
    m.map (fun kv => if kv.1 == k then (k, v) else kv)
  else m ++ [(k, v)]

/-- Server `addToHistory` on one symbol's buffer: push, then drop the
oldest entry once the length exceeds 200. -/
def addToHistory (history : List ℚ) (price : ℚ) : List ℚ :=
  let h := history ++ [price]
  if h.length > 200 then h.tail else h

/-- Server `addToHistory` at the store level (creating the entry first when
the symbol is absent, exactly as the `has` check does). -/
def addToHistoryStore (store : List (String × List ℚ)) (symbol : String)
    (price : ℚ) : List (String × List ℚ) :=
  mapSet store symbol (addToHistory ((mapGet store symbol).getD []) price)

/-! ### Live trading engine (LiveTradingEngine.tsx) -/

namespace Live

/-- Client `calculateRSI`: guarded at fewer than two prices, and the
division guard `avgLoss || 1` maps a zero average loss to one. -/
def calculateRSI (prices : List ℚ) : ℚ :=
  if prices.length < 2 then 50 else
  let changes := List.zipWith (fun a b => a - b) prices.tail prices
  let gains := (changes.map (fun c => if c > 0 then c else 0)).sum
  let losses := (changes.map (fun c => if c < 0 then |c| else 0)).sum
  let avgGain := gains / ((prices.length : ℚ) - 1)
  let avgLoss := losses / ((prices.length : ℚ) - 1)
  let rs := avgGain / (if avgLoss = 0 then 1 else avgLoss)
  100 - 100 / (1 + rs)

/-- Client `calculateEMA`: a single smoothed value; empty input yields 0. -/
def calculateEMA (prices : List ℚ) (period : ℕ) : ℚ :=
  match prices with
  | [] => 0
  | p :: rest =>
    let multiplier : ℚ := 2 / ((period : ℚ) + 1)
    rest.foldl (fun ema price => (price - ema) * multiplier + ema) p

/-- Client `calculateStandardDeviation` (population), `Math.sqrt` abstract. -/
def calculateStandardDeviation (sq : ℚ → ℚ) (prices : List ℚ) : ℚ :=
  let mean := prices.sum / (prices.length : ℚ)
  let variance := (prices.map (fun b => (b - mean) ^ 2)).sum / (prices.length : ℚ)
  sq variance

/-- Client `calculateATR`: mean absolute close-to-close change. -/
def calculateATR (prices : List ℚ) : ℚ :=
  if prices.length < 2 then 0 else
  let ranges := List.zipWith (fun a b => |a - b|) prices.tail prices
  ranges.sum / ((prices.length : ℚ) - 1)

/-- `Math.max(...)` over a list; the empty case is unreachable here. -/
def listMax : List ℚ → ℚ
  | [] => 0
  | p :: r => r.foldl max p

/-- `Math.min(...)` over a list; the empty case is unreachable here. -/
def listMin : List ℚ → ℚ
  | [] => 0
  | p :: r => r.foldl min p

structure TechnicalIndicators where
  rsi : ℚ
  sma20 : ℚ
  sma50 : ℚ
  ema9 : ℚ
  ema21 : ℚ
  macd : ℚ
  macdSignal : ℚ
  bollingerUpper : ℚ
  bollingerLower : ℚ
  stochasticK : ℚ
  stochasticD : ℚ
  atr : ℚ
  volumeRatio : ℚ
deriving DecidableEq

/-- Client `calculateIndicators`: below 50 samples it short-circuits to the
neutral snapshot (`prices[length-1] || 0` is the `getD 0` of the last
element); otherwise the full computation over trailing slices. -/
def calculateIndicators (sq : ℚ → ℚ) (prices : List ℚ) (volumes : List ℚ) :
    TechnicalIndicators :=
  if prices.length < 50 then
    let lastPrice := (prices[prices.length - 1]?).getD 0
    { rsi := 50, sma20 := lastPrice, sma50 := lastPrice, ema9 := lastPrice
      ema21 := lastPrice, macd := 0, macdSignal := 0
      bollingerUpper := lastPrice, bollingerLower := lastPrice
      stochasticK := 50, stochasticD := 50, atr := 0, volumeRatio := 1 }
  else
    let rsi := calculateRSI (lastN 14 prices)
    let sma20 := (lastN 20 prices).sum / 20
    let sma50 := (lastN 50 prices).sum / 50
    let ema9 := calculateEMA (lastN 9 prices) 9
    let ema21 := calculateEMA (lastN 21 prices) 21
    let ema12 := calculateEMA (lastN 12 prices) 12
    let ema26 := calculateEMA (lastN 26 prices) 26
    let macd := ema12 - ema26
    let macdSignal := calculateEMA [macd] 9
    let stdDev := calculateStandardDeviation sq (lastN 20 prices)
    let bollingerUpper := sma20 + 2 * stdDev
    let bollingerLower := sma20 - 2 * stdDev
    let high14 := listMax (lastN 14 prices)
    let low14 := listMin (lastN 14 prices)
    let currentPrice := (prices[prices.length - 1]?).getD 0
    let stochasticK := (currentPrice - low14) / (high14 - low14) * 100
    let stochasticD := stochasticK
    let atr := calculateATR (lastN 14 prices)
    let avgVolume := (lastN 20 volumes).sum / 20
    let currentVolume :=
      match volumes[volumes.length - 1]? with
      | none => 1
      | some v => if v = 0 then 1 else v
    let volumeRatio := currentVolume / (if avgVolume = 0 then 1 else avgVolume)
    { rsi := rsi, sma20 := sma20, sma50 := sma50, ema9 := ema9
      ema21 := ema21, macd := macd, macdSignal := macdSignal
      bollingerUpper := bollingerUpper, bollingerLower := bollingerLower
      stochasticK := stochasticK, stochasticD := stochasticD
      atr := atr, volumeRatio := volumeRatio }

structure LiveConditions where
  rsiOversold : ℚ
  rsiOverbought : ℚ
  emaSignal : Bool
  volumeThreshold : ℚ
  priceAction : Bool
deriving DecidableEq

structure LiveStrategy where
  enabled : Bool
  quantity : ℕ
  maxPositions : ℕ
  stopLoss : ℚ
  takeProfit : ℚ
  conditions : LiveConditions
deriving DecidableEq

structure TradingSignal where
  symbol : String
  action : TradingApp.Action
  strength : ℚ
  price : ℚ
deriving DecidableEq

open TradingApp.Action

/-- The two accumulators `buySignals` / `sellSignals` of `generateSignal`,
factored out: five vote sources in source order — RSI extreme, EMA
direction (when `emaSignal` is set), volume confirmation of the side
currently leading, Bollinger position (when `priceAction` is set), MACD
sign.  Each `else if` of the source is one conditional increment of one
accumulator. -/
def voteCounts (strategy : LiveStrategy) (currentPrice : ℚ)
    (ind : TechnicalIndicators) : ℕ × ℕ :=
  let bs0 : ℕ := 0
  let ss0 : ℕ := 0
  let bs1 := if ind.rsi < strategy.conditions.rsiOversold then bs0 + 1 else bs0
  let ss1 := if ¬ ind.rsi < strategy.conditions.rsiOversold
                ∧ ind.rsi > strategy.conditions.rsiOverbought then ss0 + 1 else ss0
  let bs2 := if strategy.conditions.emaSignal ∧ ind.ema9 > ind.ema21 then bs1 + 1 else bs1
  let ss2 := if strategy.conditions.emaSignal ∧ ¬ ind.ema9 > ind.ema21
                ∧ ind.ema9 < ind.ema21 then ss1 + 1 else ss1
  let bs3 := if ind.volumeRatio > strategy.conditions.volumeThreshold ∧ bs2 > ss2
             then bs2 + 1 else bs2
  let ss3 := if ind.volumeRatio > strategy.conditions.volumeThreshold ∧ ¬ bs2 > ss2
                ∧ ss2 > bs2 then ss2 + 1 else ss2
  let bs4 := if strategy.conditions.priceAction ∧ currentPrice < ind.bollingerLower
             then bs3 + 1 else bs3
  let ss4 := if strategy.conditions.priceAction ∧ ¬ currentPrice < ind.bollingerLower
                ∧ currentPrice > ind.bollingerUpper then ss3 + 1 else ss3
  let buySignals := if ind.macd > ind.macdSignal then bs4 + 1 else bs4
  let sellSignals := if ¬ ind.macd > ind.macdSignal ∧ ind.macd < ind.macdSignal
                     then ss4 + 1 else ss4
  (buySignals, sellSignals)

/-- Client `generateSignal`: BUY/SELL requires a strict majority of at
least three same-direction votes; strength is `min(votes/5, 1)`; a missing
or disabled strategy yields HOLD with strength 0. -/
def generateSignal (symbol : String) (strategy? : Option LiveStrategy)
    (currentPrice : ℚ) (ind : TechnicalIndicators) : TradingSignal :=
  match strategy? with
  | none => { symbol := symbol, action := HOLD, strength := 0, price := currentPrice }
  | some strategy =>
    if strategy.enabled = false then
      { symbol := symbol, action := HOLD, strength := 0, price := currentPrice }
    else
      let buySignals := (voteCounts strategy currentPrice ind).1
      let sellSignals := (voteCounts strategy currentPrice ind).2
      if buySignals > sellSignals ∧ buySignals ≥ 3 then
        { symbol := symbol, action := BUY
          strength := min ((buySignals : ℚ) / 5) 1, price := currentPrice }
      else if sellSignals > buySignals ∧ sellSignals ≥ 3 then
        { symbol := symbol, action := SELL
          strength := min ((sellSignals : ℚ) / 5) 1, price := currentPrice }
      else
        { symbol := symbol, action := HOLD, strength := 0, price := currentPrice }

end Live

/-! ### Strategy registry and server-side signal dispatch -/

inductive StrategyType
  | ema_crossover
  | rsi_oversold
  | sma_trend
  | bollinger_bands
deriving DecidableEq

def StrategyType.typeName : StrategyType → String
  | .ema_crossover => "ema_crossover"
  | .rsi_oversold => "rsi_oversold"
  | .sma_trend => "sma_trend"
  | .bollinger_bands => "bollinger_bands"

structure Performance where
  totalTrades : ℕ
  winRate : ℚ
  totalPnL : ℚ
  maxDrawdown : ℚ
  sharpeRatio : ℚ
deriving DecidableEq

/-- The enriched signal returned by `evaluateStrategy` (its `Date.now()`
timestamp field is not modelled). -/
structure TradeSignal where
  action : Action
  confidence : ℚ
  price : ℚ
deriving DecidableEq

structure Strategy where
  id : String
  name : String
  stype : StrategyType
  symbol : String
  enabled : Bool
  parameters : StratParams
  performance : Performance
  lastSignal : Option TradeSignal
deriving DecidableEq

open StrategyType in
/-- Server `evaluateStrategy`: requires at least 20 samples of history,
dispatches on the strategy type, and forwards only non-HOLD signals,
attaching the latest price. -/
def evaluateStrategy (sq : ℚ → ℚ) (store : List (String × List ℚ))
    (strategy : Strategy) : Option TradeSignal :=
  match mapGet store strategy.symbol with
  | none => none
  | some history =>
    if history.length < 20 then none else
    let signal : Sig :=
      match strategy.stype with
      | ema_crossover => evaluateEMACrossover history strategy.parameters
      | rsi_oversold => evaluateRSIOversold history strategy.parameters
      | sma_trend => evaluateSMATrend history strategy.parameters
      | bollinger_bands => evaluateBollingerBands sq history strategy.parameters
    if signal.action ≠ HOLD then
      some { action := signal.action, confidence := signal.confidence
             price := (history[history.length - 1]?).getD 0 }
    else none

/-! ### Orders and the real-trade execution path -/

structure Order where
  trading_symbol : String
  instrument_token : String
  quantity : ℕ
  price : ℚ
  order_type : String
  transaction_type : Action
  product : String
  validity : String
  trigger_price : Option ℚ
  disclosed_quantity : Option ℕ
  is_amo : Option Bool
  slice : Option Bool
  tag : String
deriving DecidableEq

def instrumentTokenMap : List (String × String) :=
  [("^NSEI", "NSE_INDEX|Nifty 50"), ("^NSEBANK", "NSE_INDEX|Nifty Bank"),
   ("RELIANCE.NS", "NSE_EQ|INE002A01018"), ("TCS.NS", "NSE_EQ|INE467B01029"),
   ("INFY.NS", "NSE_EQ|INE009A01021"), ("HDFCBANK.NS", "NSE_EQ|INE040A01034"),
   ("ICICIBANK.NS", "NSE_EQ|INE090A01013")]

def tradingSymbolMap : List (String × String) :=
  [("^NSEI", "NIFTY"), ("^NSEBANK", "BANKNIFTY"),
   ("RELIANCE.NS", "RELIANCE"), ("TCS.NS", "TCS"), ("INFY.NS", "INFY"),
   ("HDFCBANK.NS", "HDFCBANK"), ("ICICIBANK.NS", "ICICIBANK")]

/-- `.replace('.NS', '')` — in every reachable case the suffix strip. -/
def stripNS (s : String) : String :=
  if s.endsWith ".NS" then s.dropRight 3 else s

def getInstrumentToken (yahooSymbol : String) : String :=
  match mapGet instrumentTokenMap yahooSymbol with
  | some tok => tok
  | none => "NSE_EQ|" ++ stripNS yahooSymbol

def getTradingSymbol (yahooSymbol : String) : String :=
  match mapGet tradingSymbolMap yahooSymbol with
  | some s => s
  | none => stripNS yahooSymbol

/-- Server `scheduleStopLossAndTakeProfit`: the pair of derived risk
orders computed for a filled parent order. -/
def scheduleStopLossAndTakeProfit (strategy : Strategy) (signal : TradeSignal)
    (parentOrderId : String) : Order × Order :=
  let stopLoss := strategy.parameters.stopLoss
  let takeProfit := strategy.parameters.takeProfit
  let currentPrice := signal.price
  let stopLossPrice :=
    if signal.action = BUY then currentPrice * (1 - stopLoss / 100)
    else currentPrice * (1 + stopLoss / 100)
  let takeProfitPrice :=
    if signal.action = BUY then currentPrice * (1 + takeProfit / 100)
    else currentPrice * (1 - takeProfit / 100)
  let stopLossOrder : Order :=
    { trading_symbol := getTradingSymbol strategy.symbol
      instrument_token := getInstrumentToken strategy.symbol
      quantity := strategy.parameters.quantity
      price := stopLossPrice
      order_type := "SL"
      transaction_type := if signal.action = BUY then SELL else BUY
      product := "MIS"
      validity := "DAY"
      trigger_price := some stopLossPrice
      disclosed_quantity := none
      is_amo := none
      slice := none
      tag := "sl_" ++ parentOrderId }
  let takeProfitOrder : Order :=
    { trading_symbol := getTradingSymbol strategy.symbol
      instrument_token := getInstrumentToken strategy.symbol
      quantity := strategy.parameters.quantity
      price := takeProfitPrice
      order_type := "LIMIT"
      transaction_type := if signal.action = BUY then SELL else BUY
      product := "MIS"
      validity := "DAY"
      trigger_price := none
      disclosed_quantity := none
      is_amo := none
      slice := none
      tag := "tp_" ++ parentOrderId }
  (stopLossOrder, takeProfitOrder)

structure OrderResponse where
  success : Bool
  order_id : String
deriving DecidableEq

/-- The environment of one auto-trading cycle: the market-data source, the
exception behaviour of each strategy body, and the broker's reply to order
placement.  `now` feeds the `Date.now()` suffix of the entry-order tag. -/
structure Oracle where
  fetch : String → Option ℚ
  throws : Strategy → Bool
  errMsg : Strategy → String
  placeSuccess : Order → Bool
  orderId : String
  now : ℕ

/-- `placeOrderDirect`: HTTP-layer failures are returned as a structured
failure, never thrown. -/
def placeOrderDirect (o : Oracle) (orderData : Order) : OrderResponse :=
  if o.placeSuccess orderData then { success := true, order_id := o.orderId }
  else { success := false, order_id := "" }

structure TradeResult where
  success : Bool
  orderId : String
deriving DecidableEq

/-- A delayed follow-up job created by the `setTimeout` in
`executeRealTrade`: the stop-loss / take-profit pair, fired `delayMs`
milliseconds after the parent order was acknowledged. -/
structure ScheduledSLTP where
  delayMs : ℕ
  slOrder : Order
  tpOrder : Order
deriving DecidableEq

/-- The `orderData` literal assembled in `executeRealTrade`. -/
def buildEntryOrder (o : Oracle) (strategy : Strategy) (signal : TradeSignal) :
    Order :=
  { trading_symbol := getTradingSymbol strategy.symbol
    instrument_token := getInstrumentToken strategy.symbol
    quantity := strategy.parameters.quantity
    price := signal.price
    order_type := "LIMIT"
    transaction_type := signal.action
    product := "MIS"
    validity := "DAY"
    trigger_price := some 0
    disclosed_quantity := some 0
    is_amo := some false
    slice := some true
    tag := "algo_" ++ strategy.stype.typeName ++ "_" ++ toString o.now }

/-- Server `executeRealTrade`: submit the entry order; only when the broker
acknowledges it is the stop-loss/take-profit pair scheduled, behind a fixed
5000 ms delay.  Returns (result, submitted order, scheduled follow-up). -/
def executeRealTrade (o : Oracle) (strategy : Strategy) (signal : TradeSignal) :
    TradeResult × Order × Option ScheduledSLTP :=
  let orderData := buildEntryOrder o strategy signal
  let response := placeOrderDirect o orderData
  if response.success then
    let pair := scheduleStopLossAndTakeProfit strategy signal response.order_id
    ({ success := true, orderId := response.order_id }, orderData,
     some { delayMs := 5000, slOrder := pair.1, tpOrder := pair.2 })
  else
    ({ success := false, orderId := "" }, orderData, none)

/-! ### The auto-trading cycle (`executeAutoTrading`) -/

/-- The single log push in the cycle that enforces the cap: push, then
evict the oldest entry while more than 100 are held. -/
def appendSignalLog (logs : List String) (m : String) : List String :=
  let l := logs ++ [m]
  if l.length > 100 then l.tail else l

/-- Every other `systemStatus.logs.push(...)` in the source: no eviction. -/
def appendLog (logs : List String) (m : String) : List String := logs ++ [m]

def actionText : Action → String
  | BUY => "BUY"
  | SELL => "SELL"
  | HOLD => "HOLD"

def signalLogMsg (strategy : Strategy) (signal : TradeSignal) : String :=
  strategy.name ++ ": " ++ actionText signal.action ++ " signal"

def tradeOkMsg (strategy : Strategy) (signal : TradeSignal) : String :=
  "REAL TRADE EXECUTED: " ++ actionText signal.action ++ " " ++ strategy.symbol

def tradeFailMsg (strategy : Strategy) : String :=
  "TRADE FAILED: " ++ strategy.name

def cycleErrMsg (strategy : Strategy) (msg : String) : String :=
  "Error in " ++ strategy.name ++ ": " ++ msg

def fetchFailMsg (symbol : String) : String :=
  "Failed to fetch data for " ++ symbol

/-- The process-wide mutable state an auto-trading cycle touches.
`console` is the console trace (`console.error` in `fetchMarketData`);
`logs` is `systemStatus.logs`; `orders` collects every order submitted to
`placeOrderDirect`; `scheduled` collects the delayed SL/TP jobs. -/
structure SrvState where
  priceHistory : List (String × List ℚ)
  cache : List (String × ℚ)
  logs : List String
  console : List String
  orders : List Order
  scheduled : List ScheduledSLTP
deriving DecidableEq

/-- One iteration of the `for` loop in `executeAutoTrading`, for a single
enabled strategy.  The surrounding `try`/`catch` makes the body total: an
exception (`Oracle.throws`) degrades to an error log entry; a failed fetch
leaves everything but the console trace untouched (`continue`). -/
def processStrategy (sq : ℚ → ℚ) (o : Oracle) (st : SrvState)
    (strategy : Strategy) : SrvState :=
  if o.throws strategy then
    { st with logs := appendLog st.logs (cycleErrMsg strategy (o.errMsg strategy)) }
  else
    match o.fetch strategy.symbol with
    | none => { st with console := st.console ++ [fetchFailMsg strategy.symbol] }
    | some price =>
      let store := addToHistoryStore st.priceHistory strategy.symbol price
      let cache := mapSet st.cache strategy.symbol price
      match evaluateStrategy sq store strategy with
      | some signal =>
        if signal.confidence ≥ 70 then
          let logs1 := appendSignalLog st.logs (signalLogMsg strategy signal)
          let r := executeRealTrade o strategy signal
          let logs2 := appendLog logs1
            (if r.1.success then tradeOkMsg strategy signal else tradeFailMsg strategy)
          { priceHistory := store, cache := cache, logs := logs2
            console := st.console
            orders := st.orders ++ [r.2.1]
            scheduled := st.scheduled ++ r.2.2.toList }
        else { st with priceHistory := store, cache := cache }
      | none => { st with priceHistory := store, cache := cache }

/-- The components of the cycle state that order placement and history
depend on: everything except the two log traces. -/
def coreOf (st : SrvState) :
    List (String × List ℚ) × List (String × ℚ) × List Order × List ScheduledSLTP :=
  (st.priceHistory, st.cache, st.orders, st.scheduled)

/-- Everything except the console trace. -/
def exceptConsole (st : SrvState) :
    List (String × List ℚ) × List (String × ℚ) × List String × List Order
      × List ScheduledSLTP :=
  (st.priceHistory, st.cache, st.logs, st.orders, st.scheduled)

/-- Server `executeAutoTrading`: gated on the global auto-trading flag,
then one guarded iteration per enabled strategy. -/
def executeAutoTradingCycle (sq : ℚ → ℚ) (o : Oracle) (autoEnabled : Bool)
    (st : SrvState) (strategyList : List Strategy) : SrvState :=
  if autoEnabled then
    (strategyList.filter (fun s => s.enabled)).foldl (processStrategy sq o) st
  else st

/-! ### The HTTP endpoints the claims cover -/

structure SystemStatus where
  status : String
  autoTradingEnabled : Bool
  logs : List String
deriving DecidableEq

/-- `POST /system/auto-trading`: flips the flag, sets the status string and
pushes a log entry with no eviction. -/
def setAutoTrading (st : SystemStatus) (enabled : Bool) : SystemStatus :=
  { status := if enabled then "running" else "stopped"
    autoTradingEnabled := enabled
    logs := appendLog st.logs
      (if enabled then "Auto trading started" else "Auto trading stopped") }

/-- The request body of `PUT /:strategyId`: `Object.assign` merge — a field
present in the body overwrites, an absent one is kept. -/
structure StrategyUpdate where
  id? : Option String
  name? : Option String
  stype? : Option StrategyType
  symbol? : Option String
  enabled? : Option Bool
  parameters? : Option StratParams
  performance? : Option Performance
  lastSignal? : Option (Option TradeSignal)
deriving DecidableEq

def applyUpdate (s : Strategy) (u : StrategyUpdate) : Strategy :=
  { id := u.id?.getD s.id
    name := u.name?.getD s.name
    stype := u.stype?.getD s.stype
    symbol := u.symbol?.getD s.symbol
    enabled := u.enabled?.getD s.enabled
    parameters := u.parameters?.getD s.parameters
    performance := u.performance?.getD s.performance
    lastSignal := u.lastSignal?.getD s.lastSignal }

/-- `PUT /:strategyId`: merge-update an existing strategy in the registry
(the map entry keeps its key), push an (untrimmed) log entry; a missing id
is a 404 and leaves everything unchanged. -/
def putStrategy (reg : List (String × Strategy)) (logs : List String)
    (strategyId : String) (updates : StrategyUpdate) :
    List (String × Strategy) × List String × Bool :=
  match mapGet reg strategyId with
  | some strategy =>
    let merged := applyUpdate strategy updates
    (mapSet reg strategyId merged,
     appendLog logs ("Strategy " ++ merged.name ++ " updated"), true)
  | none => (reg, logs, false)

/-! ### Candle aggregation (candleUtils.ts) -/

structure Candle where
  time : ℕ
  open_ : ℚ
  high : ℚ
  low : ℚ
  close : ℚ
deriving DecidableEq

/-- `addOrUpdateCandle`: align the tick to its interval bucket; a new
bucket appends a fresh candle and keeps only the last 60 (`slice(-60)`);
the same bucket folds the tick into the last candle. -/
def addOrUpdateCandle (candles : List Candle) (price : ℚ) (timestamp : ℕ)
    (intervalSec : ℕ) : List Candle :=
  let candleTime := timestamp / intervalSec * intervalSec
  match candles.getLast? with
  | none => lastN 60 (candles ++ [⟨candleTime, price, price, price, price⟩])
  | some last =>
    if last.time ≠ candleTime then
      lastN 60 (candles ++ [⟨candleTime, price, price, price, price⟩])
    else
      candles.dropLast ++
        [{ last with high := max last.high price, low := min last.low price
                     close := price }]

/-! ### Live-engine trade execution (`executeTrade` in the tsx loop) -/

namespace Live

/-- Client `executeTrade`: the HOLD/strength gate, the strategy lookup, the
position cap and the 30-second cooldown; only then is the market order
assembled and submitted. -/
def executeTrade (strategy? : Option LiveStrategy) (positionsCount : ℕ)
    (timeSinceLastTrade : ℕ) (now : ℕ) (signal : TradingSignal) :
    Option Order :=
  if signal.action = HOLD ∨ signal.strength < 3 / 5 then none else
  match strategy? with
  | none => none
  | some strategy =>
    if positionsCount ≥ strategy.maxPositions then none
    else if timeSinceLastTrade < 30000 then none
    else some
      { trading_symbol := signal.symbol
        instrument_token := "NSE_EQ|" ++ signal.symbol
        quantity := strategy.quantity
        price := signal.price
        order_type := "MARKET"
        transaction_type := signal.action
        product := "MIS"
        validity := "DAY"
        trigger_price := none
        disclosed_quantity := none
        is_amo := none
        slice := none
        tag := "live_trading_" ++ toString now }

end Live

/-- Concrete fixtures for the witnesses of the trading-loop claims. -/
def paramsW : StratParams := ⟨9, 21, 14, 30, 70, 20, 50, 1, 20, 2, true, 15, 2, 4⟩

def strategyW : Strategy :=
  ⟨"rsi_oversold_1", "RSI Oversold", StrategyType.rsi_oversold, "TCS.NS", true,
   paramsW, ⟨0, 0, 0, 0, 0⟩, none⟩

def oracleW : Oracle :=
  ⟨fun _ => some 20, fun _ => false, fun _ => "", fun _ => true, "OID1", 0⟩

def histW : List ℚ :=
  [40, 39, 38, 37, 36, 35, 34, 33, 32, 31, 30, 29, 28, 27, 26, 25, 24, 23, 22, 21]

def stateW : SrvState := ⟨[("TCS.NS", histW)], [], [], [], [], []⟩

def liveStrategyW : Live.LiveStrategy := ⟨true, 10, 3, 1000, 2000, ⟨30, 70, true, 6 / 5, true⟩⟩

def liveSignalW : Live.TradingSignal := ⟨"NIFTY", Action.BUY, 4 / 5, 100⟩

def liveOrderW : Order :=
  ⟨"NIFTY", "NSE_EQ|" ++ "NIFTY", 10, 100, "MARKET", Action.BUY, "MIS", "DAY",
   none, none, none, none, "live_trading_" ++ toString 0⟩

def indicatorsW : Live.TechnicalIndicators :=
  ⟨10, 0, 0, 2, 1, 1, 0, 100, 60, 50, 50, 0, 2⟩

def strategyBadW : Strategy :=
  ⟨"bad", "Bad", StrategyType.rsi_oversold, "BAD", true, paramsW, ⟨0, 0, 0, 0, 0⟩, none⟩

def oracleMixW : Oracle :=
  ⟨fun sym => if sym == "BAD" then none else some 20, fun _ => false, fun _ => "",
   fun _ => true, "OID1", 0⟩

def oracleThrowW : Oracle :=
  ⟨fun _ => some 20, fun s => s.id == "bad", fun _ => "boom", fun _ => true, "OID1", 0⟩

/-! ## Theorems -/

/-- Claim C4: every strategy evaluator returns HOLD with confidence 0 on
insufficient history — `evaluateEMACrossover` below `slowPeriod` samples,
`evaluateRSIOversold` below `rsiPeriod + 1`, `evaluateSMATrend` below
`longPeriod`, `evaluateBollingerBands` below `period` — and the dispatching
`evaluateStrategy` produces no actionable signal when the symbol's history
has fewer than 20 samples (or no history at all).  All evaluators are total
functions: no input throws. -/
theorem insufficient_history_holds :
    (∀ (prices : List ℚ) (p : StratParams), prices.length < p.slowPeriod →
      evaluateEMACrossover prices p = ⟨Action.HOLD, 0⟩)
    ∧ (∀ (prices : List ℚ) (p : StratParams), prices.length < p.rsiPeriod + 1 →
      evaluateRSIOversold prices p = ⟨Action.HOLD, 0⟩)
    ∧ (∀ (prices : List ℚ) (p : StratParams), prices.length < p.longPeriod →
      evaluateSMATrend prices p = ⟨Action.HOLD, 0⟩)
    ∧ (∀ (sq : ℚ → ℚ) (prices : List ℚ) (p : StratParams), prices.length < p.period →
      evaluateBollingerBands sq prices p = ⟨Action.HOLD, 0⟩)
    ∧ (∀ (sq : ℚ → ℚ) (store : List (String × List ℚ)) (s : Strategy) (history : List ℚ),
      mapGet store s.symbol = some history → history.length < 20 →
      evaluateStrategy sq store s = none)
    ∧ (∀ (sq : ℚ → ℚ) (store : List (String × List ℚ)) (s : Strategy),
      mapGet store s.symbol = none → evaluateStrategy sq store s = none) := by
  refine ⟨fun prices p h => ?_, fun prices p h => ?_, fun prices p h => ?_,
    fun sq prices p h => ?_, fun sq store s history hm h => ?_, fun sq store s hm => ?_⟩
  · rw [evaluateEMACrossover, if_pos h]
  · rw [evaluateRSIOversold, if_pos h]
  · rw [evaluateSMATrend, if_pos h]
  · rw [evaluateBollingerBands, if_pos h]
  · rw [evaluateStrategy, hm]
    simp only [if_pos h]
  · rw [evaluateStrategy, hm]

/-- Witness for C4 at concrete short inputs. -/
theorem insufficient_history_holds_witness :
    evaluateEMACrossover [1] ⟨9, 21, 14, 30, 70, 20, 50, 1, 20, 2, true, 25, 2, 4⟩
        = ⟨Action.HOLD, 0⟩
    ∧ evaluateRSIOversold [1] ⟨9, 21, 14, 30, 70, 20, 50, 1, 20, 2, true, 25, 2, 4⟩
        = ⟨Action.HOLD, 0⟩
    ∧ evaluateSMATrend [1] ⟨9, 21, 14, 30, 70, 20, 50, 1, 20, 2, true, 25, 2, 4⟩
        = ⟨Action.HOLD, 0⟩
    ∧ evaluateBollingerBands (fun _ => 0) [1]
        ⟨9, 21, 14, 30, 70, 20, 50, 1, 20, 2, true, 25, 2, 4⟩ = ⟨Action.HOLD, 0⟩
    ∧ evaluateStrategy (fun _ => 0) [("X", [1])]
        ⟨"s1", "S", StrategyType.rsi_oversold, "X", true,
         ⟨9, 21, 14, 30, 70, 20, 50, 1, 20, 2, true, 25, 2, 4⟩, ⟨0, 0, 0, 0, 0⟩, none⟩
        = none
    ∧ evaluateStrategy (fun _ => 0) []
        ⟨"s1", "S", StrategyType.rsi_oversold, "X", true,
         ⟨9, 21, 14, 30, 70, 20, 50, 1, 20, 2, true, 25, 2, 4⟩, ⟨0, 0, 0, 0, 0⟩, none⟩
        = none :=
  ⟨insufficient_history_holds.1 [1] _ (by decide),
   insufficient_history_holds.2.1 [1] _ (by decide),
   insufficient_history_holds.2.2.1 [1] _ (by decide),
   insufficient_history_holds.2.2.2.1 (fun _ => 0) [1] _ (by decide),
   insufficient_history_holds.2.2.2.2.1 (fun _ => 0) _ _ [1] (by simp [mapGet]) (by decide),
   insufficient_history_holds.2.2.2.2.2 (fun _ => 0) _ _ (by simp [mapGet])⟩

/-- Claim C1 (counterexample): the claim asserts that with
`fastEMA[n-2] = slowEMA[n-2]` the evaluator returns HOLD even when the fast
EMA is strictly above the slow EMA at the last index.  With prices `[1, 2]`,
`fastPeriod 1`, `slowPeriod 2`, both EMA series start at `1` (equal at the
previous index), the fast EMA ends at `2`, strictly above the slow `5/3`,
and `evaluateEMACrossover` returns BUY with confidence 85, not HOLD: the
before-side comparison `prevFast <= prevSlow` is non-strict. -/
theorem emaCrossover_equalPrev_notHold :
    (calculateEMA [(1 : ℚ), 2] 1)[0]? = (calculateEMA [(1 : ℚ), 2] 2)[0]?
    ∧ ((calculateEMA [(1 : ℚ), 2] 1)[1]?).getD 0 > ((calculateEMA [(1 : ℚ), 2] 2)[1]?).getD 0
    ∧ evaluateEMACrossover [1, 2] ⟨1, 2, 14, 30, 70, 20, 50, 1, 20, 2, true, 25, 2, 4⟩
        = ⟨Action.BUY, 85⟩ := by
  norm_num [calculateEMA, evaluateEMACrossover]

/-- Claim C1 (amended): when the fast and slow EMA are exactly equal at the
previous index, `evaluateEMACrossover` does register the move — BUY with
confidence 85 when the fast EMA is strictly above the slow EMA at the last
index, SELL with confidence 85 when strictly below — because the before-side
comparisons (`prevFast <= prevSlow`, `prevFast >= prevSlow`) are non-strict
and equality satisfies both. -/
theorem emaCrossover_equalPrev_crossRegisters (prices : List ℚ) (p : StratParams)
    (hlen : ¬ prices.length < p.slowPeriod)
    (currentFast currentSlow prevFast prevSlow : ℚ)
    (hcf : (calculateEMA prices p.fastPeriod)[(calculateEMA prices p.fastPeriod).length - 1]?
      = some currentFast)
    (hcs : (calculateEMA prices p.slowPeriod)[(calculateEMA prices p.slowPeriod).length - 1]?
      = some currentSlow)
    (hpf : (calculateEMA prices p.fastPeriod)[(calculateEMA prices p.fastPeriod).length - 2]?
      = some prevFast)
    (hps : (calculateEMA prices p.slowPeriod)[(calculateEMA prices p.slowPeriod).length - 2]?
      = some prevSlow)
    (heq : prevFast = prevSlow) :
    (currentFast > currentSlow → evaluateEMACrossover prices p = ⟨Action.BUY, 85⟩)
    ∧ (currentFast < currentSlow → evaluateEMACrossover prices p = ⟨Action.SELL, 85⟩) := by
  constructor
  · intro hgt
    rw [evaluateEMACrossover, if_neg hlen]
    dsimp only
    rw [hcf, hcs, hpf, hps]
    dsimp only
    rw [if_pos ⟨le_of_eq heq, hgt⟩]
  · intro hlt
    rw [evaluateEMACrossover, if_neg hlen]
    dsimp only
    rw [hcf, hcs, hpf, hps]
    dsimp only
    rw [if_neg ?_, if_pos ⟨ge_of_eq heq, hlt⟩]
    intro hc
    exact absurd hc.2 (not_lt.mpr (le_of_lt hlt))

/-- Witness for the amended C1, at the same concrete input as the
counterexample. -/
theorem emaCrossover_equalPrev_crossRegisters_witness :
    evaluateEMACrossover [1, 2] ⟨1, 2, 14, 30, 70, 20, 50, 1, 20, 2, true, 25, 2, 4⟩
      = ⟨Action.BUY, 85⟩ :=
  (emaCrossover_equalPrev_crossRegisters [1, 2]
    ⟨1, 2, 14, 30, 70, 20, 50, 1, 20, 2, true, 25, 2, 4⟩ (by decide)
    2 (5 / 3) 1 1
    (by norm_num [calculateEMA]) (by norm_num [calculateEMA])
    (by norm_num [calculateEMA]) (by norm_num [calculateEMA]) rfl).1 (by norm_num)

/-- Claim C5 (counterexample): the claim asserts that for every price list
shorter than the period the server `calculateRSI` returns the neutral 50 and
never NaN.  The server variant has no short-input guard: with `[1, 2]` and
period 14 (list shorter than the period) the average loss is zero while the
average gain is not, the float relative strength is infinite and the RSI
saturates at 100, not 50; with the constant list `[5, 5]` both averages are
zero and the float result is NaN (modelled as `none`), not a real number. -/
theorem server_rsi_short_not_fifty :
    [(1 : ℚ), 2].length < 14
    ∧ calculateRSI [(1 : ℚ), 2] 14 = some 100
    ∧ calculateRSI [(1 : ℚ), 2] 14 ≠ some 50
    ∧ [(5 : ℚ), 5].length < 14
    ∧ calculateRSI [(5 : ℚ), 5] 14 = none := by
  norm_num [calculateRSI]

/-- Claim C5 (amended): the warm-up guards live on the client path, not in
the server `calculateRSI`: the client `calculateRSI` returns the neutral 50
for fewer than two prices (and its `avgLoss || 1` guard keeps it NaN-free),
and the client `calculateIndicators` short-circuits below 50 samples to the
neutral snapshot whose RSI is 50 and whose Bollinger bands collapse to the
current price. -/
theorem short_input_neutral_defaults :
    (∀ prices : List ℚ, prices.length < 2 → Live.calculateRSI prices = 50)
    ∧ (∀ (sq : ℚ → ℚ) (prices volumes : List ℚ), prices.length < 50 →
        (Live.calculateIndicators sq prices volumes).rsi = 50
        ∧ (Live.calculateIndicators sq prices volumes).bollingerUpper
            = (prices[prices.length - 1]?).getD 0
        ∧ (Live.calculateIndicators sq prices volumes).bollingerLower
            = (prices[prices.length - 1]?).getD 0) := by
  constructor
  · intro prices h
    rw [Live.calculateRSI, if_pos h]
  · intro sq prices volumes h
    refine ⟨?_, ?_, ?_⟩ <;> rw [Live.calculateIndicators, if_pos h]

/-- Witness for the amended C5 at concrete short inputs. -/
theorem short_input_neutral_defaults_witness :
    Live.calculateRSI [] = 50
    ∧ (Live.calculateIndicators (fun _ => 0) [7] []).rsi = 50
    ∧ (Live.calculateIndicators (fun _ => 0) [7] []).bollingerUpper = 7
    ∧ (Live.calculateIndicators (fun _ => 0) [7] []).bollingerLower = 7 := by
  refine ⟨short_input_neutral_defaults.1 [] (by decide),
    (short_input_neutral_defaults.2 (fun _ => 0) [7] [] (by decide)).1, ?_, ?_⟩
  · have h := (short_input_neutral_defaults.2 (fun _ => 0) [7] [] (by decide)).2.1
    simpa using h
  · have h := (short_input_neutral_defaults.2 (fun _ => 0) [7] [] (by decide)).2.2
    simpa using h

/-- One `addToHistory` step in closed form: append, then drop the overflow
from the front. -/
theorem addToHistory_drop (h : List ℚ) (p : ℚ) (hle : h.length ≤ 200) :
    addToHistory h p = (h ++ [p]).drop (h.length + 1 - 200) := by
  rw [addToHistory]
  rcases Nat.lt_or_ge h.length 200 with hlt | hge
  · rw [if_neg (by simp; omega)]
    rw [Nat.sub_eq_zero_of_le (by omega), List.drop_zero]
  · have h200 : h.length = 200 := le_antisymm hle hge
    rw [if_pos (by simp [h200])]
    rw [h200]
    norm_num

set_option maxRecDepth 4000 in
/-- Folding `addToHistory` over any batch of prices keeps exactly the
suffix that fits the 200 cap. -/
theorem foldl_addToHistory_drop (ps : List ℚ) : ∀ h : List ℚ, h.length ≤ 200 →
    ps.foldl addToHistory h = (h ++ ps).drop (h.length + ps.length - 200) := by
  induction ps with
  | nil =>
    intro h hle
    simp [Nat.sub_eq_zero_of_le hle]
  | cons p ps ih =>
    intro h hle
    rw [List.foldl_cons, addToHistory_drop h p hle]
    have hlen2 : ((h ++ [p]).drop (h.length + 1 - 200)).length ≤ 200 := by
      simp [List.length_drop, List.length_append]
      omega
    rw [ih _ hlen2]
    have key : ((h ++ [p]).drop (h.length + 1 - 200)) ++ ps
        = ((h ++ [p]) ++ ps).drop (h.length + 1 - 200) :=
      (List.drop_append_of_le_length (by simp; omega)).symm
    rw [key, List.drop_drop, List.append_assoc, List.singleton_append]
    congr 1
    rw [List.length_drop, List.length_append, List.length_singleton, List.length_cons]
    omega

/-- Claim C6: buffer eviction is FIFO at a fixed cap.  A full raw buffer of
200 prices takes one more price by dropping the oldest and appending the
new price last; a full candle list of 60 takes a new-bucket candle the same
way; and folding any batch of prices into a buffer within the cap leaves
exactly the last 200 of the concatenation — in particular exactly 200
entries whenever the cap is reached. -/
theorem buffer_eviction_fifo :
    (∀ (h : List ℚ) (p : ℚ), h.length = 200 →
      addToHistory h p = h.tail ++ [p] ∧ (addToHistory h p).length = 200)
    ∧ (∀ (candles : List Candle) (last : Candle) (price : ℚ) (t iv : ℕ),
        candles.getLast? = some last → candles.length = 60 →
        last.time ≠ t / iv * iv →
        addOrUpdateCandle candles price t iv
          = candles.tail ++ [⟨t / iv * iv, price, price, price, price⟩]
        ∧ (addOrUpdateCandle candles price t iv).length = 60)
    ∧ (∀ h ps : List ℚ, h.length ≤ 200 → 200 ≤ h.length + ps.length →
        ps.foldl addToHistory h = lastN 200 (h ++ ps)
        ∧ (ps.foldl addToHistory h).length = 200) := by
  refine ⟨fun h p hl => ?_, fun candles last price t iv hlast hlen hne => ?_,
    fun h ps hle hcap => ?_⟩
  · have h1 : addToHistory h p = (h ++ [p]).drop 1 := by
      rw [addToHistory_drop h p (le_of_eq hl), hl]
    constructor
    · rw [h1, List.drop_one]
      cases h with
      | nil => simp at hl
      | cons a t => simp
    · rw [h1, List.length_drop, List.length_append, hl]
      simp
  · simp only [addOrUpdateCandle]
    rw [hlast]
    dsimp only
    rw [if_pos hne]
    have hlen61 :
        (candles ++ [(⟨t / iv * iv, price, price, price, price⟩ : Candle)]).length = 61 := by
      simp [hlen]
    constructor
    · rw [lastN, hlen61]
      norm_num
      cases candles with
      | nil => simp at hlen
      | cons a tl => simp
    · rw [lastN, hlen61, List.length_drop, hlen61]
  · have hfold := foldl_addToHistory_drop ps h hle
    constructor
    · rw [hfold, lastN, List.length_append]
    · rw [hfold, List.length_drop, List.length_append]
      omega

/-- Witness for C6 at full concrete buffers. -/
theorem buffer_eviction_fifo_witness :
    addToHistory (List.replicate 200 (1 : ℚ)) 2
      = (List.replicate 200 (1 : ℚ)).tail ++ [2]
    ∧ (addToHistory (List.replicate 200 (1 : ℚ)) 2).length = 200
    ∧ addOrUpdateCandle
        (List.replicate 59 (⟨0, 1, 1, 1, 1⟩ : Candle) ++ [(⟨60, 1, 1, 1, 1⟩ : Candle)]) 2 120 60
      = (List.replicate 59 (⟨0, 1, 1, 1, 1⟩ : Candle) ++ [(⟨60, 1, 1, 1, 1⟩ : Candle)]).tail
        ++ [⟨120 / 60 * 60, 2, 2, 2, 2⟩]
    ∧ (List.replicate 5 (2 : ℚ)).foldl addToHistory (List.replicate 198 (1 : ℚ))
      = lastN 200 (List.replicate 198 (1 : ℚ) ++ List.replicate 5 2)
    ∧ ((List.replicate 5 (2 : ℚ)).foldl addToHistory
        (List.replicate 198 (1 : ℚ))).length = 200 := by
  refine ⟨(buffer_eviction_fifo.1 _ 2 (by rw [List.length_replicate])).1,
    (buffer_eviction_fifo.1 _ 2 (by rw [List.length_replicate])).2,
    (buffer_eviction_fifo.2.1 _ (⟨60, 1, 1, 1, 1⟩ : Candle) 2 120 60
      (by rw [List.getLast?_concat])
      (by simp only [List.length_append, List.length_replicate, List.length_singleton]) ?_).1,
    (buffer_eviction_fifo.2.2 _ _ (by rw [List.length_replicate]; omega)
      (by rw [List.length_replicate, List.length_replicate]; omega) ).1,
    (buffer_eviction_fifo.2.2 _ _ (by rw [List.length_replicate]; omega)
      (by rw [List.length_replicate, List.length_replicate]; omega) ).2⟩
  decide

/-- Claim C7 (counterexample): the claim asserts that every operation that
appends a log entry — including the strategy-update endpoint and the
auto-trading enable/disable endpoint — preserves the 100-entry cap.  The
auto-trading endpoint pushes without eviction: starting from exactly 100
log entries it leaves 101. -/
theorem logs_cap_not_preserved :
    (List.replicate 100 "x").length = 100
    ∧ (setAutoTrading ⟨"stopped", false, List.replicate 100 "x"⟩ true).logs.length = 101 := by
  constructor
  · rw [List.length_replicate]
  · rw [setAutoTrading]
    dsimp only
    rw [appendLog, List.length_append, List.length_replicate, List.length_singleton]

/-- Claim C7 (amended): only the signal-log append inside the auto-trading
cycle enforces the cap — it preserves `length ≤ 100` and evicts the oldest
entry when full — while the plain `push` used by the strategy-update
endpoint, the auto-trading enable/disable endpoint and the trade/error
logging always grows the list by one, with no eviction. -/
theorem logs_cap_only_signal_path :
    (∀ (logs : List String) (m : String), logs.length ≤ 100 →
      (appendSignalLog logs m).length ≤ 100)
    ∧ (∀ (logs : List String) (m : String), logs.length = 100 →
      appendSignalLog logs m = logs.tail ++ [m])
    ∧ (∀ (logs : List String) (m : String), (appendLog logs m).length = logs.length + 1)
    ∧ (∀ (st : SystemStatus) (enabled : Bool),
      (setAutoTrading st enabled).logs.length = st.logs.length + 1)
    ∧ (∀ (reg : List (String × Strategy)) (logs : List String) (sid : String)
        (u : StrategyUpdate) (s : Strategy), mapGet reg sid = some s →
      ((putStrategy reg logs sid u).2.1).length = logs.length + 1) := by
  refine ⟨fun logs m hle => ?_, fun logs m hl => ?_, fun logs m => ?_,
    fun st enabled => ?_, fun reg logs sid u s hm => ?_⟩
  · rw [appendSignalLog]
    rcases Nat.lt_or_ge logs.length 100 with hlt | hge
    · rw [if_neg (by simp; omega)]
      simp
      omega
    · have h100 : logs.length = 100 := le_antisymm hle hge
      rw [if_pos (by simp [h100])]
      simp [List.length_drop]
      exact hle
  · rw [appendSignalLog]
    rw [if_pos (by simp [hl])]
    cases logs with
    | nil => simp at hl
    | cons a t => simp
  · rw [appendLog, List.length_append, List.length_singleton]
  · rw [setAutoTrading]
    dsimp only
    rw [appendLog, List.length_append, List.length_singleton]
  · rw [putStrategy]
    rw [hm]
    dsimp only
    rw [appendLog, List.length_append, List.length_singleton]

/-- Witness for the amended C7 at a full concrete log list. -/
theorem logs_cap_only_signal_path_witness :
    (appendSignalLog (List.replicate 100 "x") "y").length ≤ 100
    ∧ appendSignalLog (List.replicate 100 "x") "y"
        = (List.replicate 100 "x").tail ++ ["y"]
    ∧ (appendLog (List.replicate 100 "x") "y").length
        = (List.replicate 100 "x").length + 1
    ∧ (setAutoTrading ⟨"running", true, List.replicate 100 "x"⟩ false).logs.length
        = (List.replicate 100 "x").length + 1
    ∧ ((putStrategy
          [("s1", ⟨"s1", "S", StrategyType.rsi_oversold, "X", true,
            ⟨9, 21, 14, 30, 70, 20, 50, 1, 20, 2, true, 25, 2, 4⟩, ⟨0, 0, 0, 0, 0⟩, none⟩)]
          (List.replicate 100 "x") "s1"
          ⟨none, none, none, none, some false, none, none, none⟩).2.1).length
        = (List.replicate 100 "x").length + 1 :=
  ⟨logs_cap_only_signal_path.1 _ "y" (by rw [List.length_replicate]),
   logs_cap_only_signal_path.2.1 _ "y" (by rw [List.length_replicate]),
   logs_cap_only_signal_path.2.2.1 _ "y",
   logs_cap_only_signal_path.2.2.2.1 _ false,
   logs_cap_only_signal_path.2.2.2.2 _ _ "s1" _
     ⟨"s1", "S", StrategyType.rsi_oversold, "X", true,
      ⟨9, 21, 14, 30, 70, 20, 50, 1, 20, 2, true, 25, 2, 4⟩, ⟨0, 0, 0, 0, 0⟩, none⟩
     (by simp [mapGet])⟩

/-- First-match lookup is unchanged at other keys by the in-place key
replacement that `Map.set` performs. -/
theorem find?_map_setKey {α : Type} (k k' : String) (v : α) (hne : k' ≠ k) :
    ∀ m : List (String × α),
      (m.map (fun kv => if kv.1 == k then (k, v) else kv)).find? (fun kv => kv.1 == k')
        = m.find? (fun kv => kv.1 == k') := by
  intro m
  induction m with
  | nil => rfl
  | cons kv rest ih =>
    rw [List.map_cons]
    by_cases hk : kv.1 == k
    · have hkk : kv.1 = k := by simpa using hk
      rw [if_pos hk]
      rw [List.find?_cons_of_neg _ (by simp; exact Ne.symm hne),
        List.find?_cons_of_neg _ (by simp [hkk]; exact Ne.symm hne)]
      exact ih
    · rw [if_neg hk]
      by_cases hk' : kv.1 == k'
      · rw [@List.find?_cons_of_pos _ (fun kv => kv.1 == k') kv _ hk',
          @List.find?_cons_of_pos _ (fun kv => kv.1 == k') kv _ hk']
      · rw [@List.find?_cons_of_neg _ (fun kv => kv.1 == k') kv _ hk',
          @List.find?_cons_of_neg _ (fun kv => kv.1 == k') kv _ hk']
        exact ih

/-- `mapSet` leaves every other key’s lookup unchanged. -/
theorem mapGet_mapSet_ne {α : Type} (m : List (String × α)) (k k' : String) (v : α)
    (hne : k' ≠ k) : mapGet (mapSet m k v) k' = mapGet m k' := by
  rw [mapSet]
  by_cases hp : (m.find? (fun kv => kv.1 == k)).isSome
  · rw [if_pos hp, mapGet, mapGet, find?_map_setKey k k' v hne m]
  · rw [if_neg hp]
    rw [mapGet, List.find?_append]
    rcases hfs : m.find? (fun kv => kv.1 == k') with _ | x
    · simp [mapGet, hfs, Ne.symm hne]
    · simp [mapGet, hfs]

/-- `mapSet` on a present key makes the lookup return the new value. -/
theorem mapGet_mapSet_self {α : Type} (m : List (String × α)) (k : String) (v a : α)
    (h : mapGet m k = some a) : mapGet (mapSet m k v) k = some v := by
  induction m with
  | nil => simp [mapGet] at h
  | cons kv rest ih =>
    by_cases hk : kv.1 == k
    · rw [mapSet, if_pos (by rw [@List.find?_cons_of_pos _ (fun kv => kv.1 == k) kv _ hk]; simp)]
      rw [mapGet]
      rw [List.map_cons, if_pos hk]
      rw [@List.find?_cons_of_pos _ (fun kv => kv.1 == k) (k, v) _ (by simp)]
      rfl
    · have hmg : mapGet rest k = some a := by
        rw [mapGet, List.find?_cons_of_neg _ (by simpa using hk)] at h
        exact h
      have hfind : (rest.find? (fun kv => kv.1 == k)).isSome := by
        rw [mapGet] at hmg
        rcases hfs : rest.find? (fun kv => kv.1 == k) with _ | x
        · rw [hfs] at hmg; simp at hmg
        · simp [hfs]
      rw [mapSet, if_pos (by rw [List.find?_cons_of_neg _ (by simpa using hk)]; exact hfind)]
      rw [List.map_cons, if_neg (by simpa using hk)]
      rw [mapGet, List.find?_cons_of_neg _ (by simpa using hk)]
      have hih := ih hmg
      rw [mapSet, if_pos hfind] at hih
      rw [mapGet] at hih
      exact hih

/-- Claim C9: `PUT /:strategyId` has merge semantics with a bounded frame.
For an existing strategy id the endpoint succeeds; the stored strategy is
the `Object.assign` merge, so every field not named in the update record
retains its prior value; and the lookup of every other id in the registry
is unchanged. -/
theorem strategy_update_merge_frame
    (reg : List (String × Strategy)) (logs : List String) (sid : String)
    (u : StrategyUpdate) (s : Strategy) (hm : mapGet reg sid = some s) :
    (putStrategy reg logs sid u).2.2 = true
    ∧ mapGet (putStrategy reg logs sid u).1 sid = some (applyUpdate s u)
    ∧ (u.id? = none → (applyUpdate s u).id = s.id)
    ∧ (u.name? = none → (applyUpdate s u).name = s.name)
    ∧ (u.stype? = none → (applyUpdate s u).stype = s.stype)
    ∧ (u.symbol? = none → (applyUpdate s u).symbol = s.symbol)
    ∧ (u.enabled? = none → (applyUpdate s u).enabled = s.enabled)
    ∧ (u.parameters? = none → (applyUpdate s u).parameters = s.parameters)
    ∧ (u.performance? = none → (applyUpdate s u).performance = s.performance)
    ∧ (u.lastSignal? = none → (applyUpdate s u).lastSignal = s.lastSignal)
    ∧ (∀ sid' : String, sid' ≠ sid →
        mapGet (putStrategy reg logs sid u).1 sid' = mapGet reg sid') := by
  rw [putStrategy, hm]
  dsimp only
  refine ⟨rfl, mapGet_mapSet_self reg sid _ s hm,
    fun h => by rw [applyUpdate, h]; rfl,
    fun h => by rw [applyUpdate, h]; rfl,
    fun h => by rw [applyUpdate, h]; rfl,
    fun h => by rw [applyUpdate, h]; rfl,
    fun h => by rw [applyUpdate, h]; rfl,
    fun h => by rw [applyUpdate, h]; rfl,
    fun h => by rw [applyUpdate, h]; rfl,
    fun h => by rw [applyUpdate, h]; rfl,
    fun sid' hne => mapGet_mapSet_ne reg sid sid' _ hne⟩

/-- Witness for C9: update strategy "s1" setting only `enabled`; the name
field is retained and strategy "s2" is untouched. -/
theorem strategy_update_merge_frame_witness :
    (putStrategy
        [("s1", ⟨"s1", "A", StrategyType.ema_crossover, "X", true,
          ⟨9, 21, 14, 30, 70, 20, 50, 1, 20, 2, true, 25, 2, 4⟩, ⟨0, 0, 0, 0, 0⟩, none⟩),
         ("s2", ⟨"s2", "B", StrategyType.sma_trend, "Y", false,
          ⟨9, 21, 14, 30, 70, 20, 50, 1, 20, 2, true, 25, 2, 4⟩, ⟨0, 0, 0, 0, 0⟩, none⟩)]
        [] "s1" ⟨none, none, none, none, some false, none, none, none⟩).2.2 = true
    ∧ (applyUpdate
        ⟨"s1", "A", StrategyType.ema_crossover, "X", true,
          ⟨9, 21, 14, 30, 70, 20, 50, 1, 20, 2, true, 25, 2, 4⟩, ⟨0, 0, 0, 0, 0⟩, none⟩
        ⟨none, none, none, none, some false, none, none, none⟩).name = "A"
    ∧ mapGet (putStrategy
        [("s1", ⟨"s1", "A", StrategyType.ema_crossover, "X", true,
          ⟨9, 21, 14, 30, 70, 20, 50, 1, 20, 2, true, 25, 2, 4⟩, ⟨0, 0, 0, 0, 0⟩, none⟩),
         ("s2", ⟨"s2", "B", StrategyType.sma_trend, "Y", false,
          ⟨9, 21, 14, 30, 70, 20, 50, 1, 20, 2, true, 25, 2, 4⟩, ⟨0, 0, 0, 0, 0⟩, none⟩)]
        [] "s1" ⟨none, none, none, none, some false, none, none, none⟩).1 "s2"
      = mapGet
        [("s1", ⟨"s1", "A", StrategyType.ema_crossover, "X", true,
          ⟨9, 21, 14, 30, 70, 20, 50, 1, 20, 2, true, 25, 2, 4⟩, ⟨0, 0, 0, 0, 0⟩, none⟩),
         ("s2", ⟨"s2", "B", StrategyType.sma_trend, "Y", false,
          ⟨9, 21, 14, 30, 70, 20, 50, 1, 20, 2, true, 25, 2, 4⟩, ⟨0, 0, 0, 0, 0⟩, none⟩)]
        "s2" := by
  have H := strategy_update_merge_frame
    [("s1", ⟨"s1", "A", StrategyType.ema_crossover, "X", true,
      ⟨9, 21, 14, 30, 70, 20, 50, 1, 20, 2, true, 25, 2, 4⟩, ⟨0, 0, 0, 0, 0⟩, none⟩),
     ("s2", ⟨"s2", "B", StrategyType.sma_trend, "Y", false,
      ⟨9, 21, 14, 30, 70, 20, 50, 1, 20, 2, true, 25, 2, 4⟩, ⟨0, 0, 0, 0, 0⟩, none⟩)]
    [] "s1"
    ⟨none, none, none, none, some false, none, none, none⟩
    ⟨"s1", "A", StrategyType.ema_crossover, "X", true,
      ⟨9, 21, 14, 30, 70, 20, 50, 1, 20, 2, true, 25, 2, 4⟩, ⟨0, 0, 0, 0, 0⟩, none⟩
    (by simp [mapGet])
  exact ⟨H.1, H.2.2.2.1 rfl, H.2.2.2.2.2.2.2.2.2.2 "s2" (by simp)⟩

/-- Claim C3: after a successful parent placement at entry price P, the
derived stop-loss order carries price and trigger price offset by
`stopLoss`% in the adverse direction with the offsetting transaction type
and tag `sl_<parentOrderId>`, the take-profit order carries the
`takeProfit`% favorable limit price with tag `tp_<parentOrderId>`; for a
SELL entry the prices are mirrored and both children are BUY; and the
children are scheduled only when the parent order is acknowledged, behind
the fixed 5000 ms delay. -/
theorem stopLoss_takeProfit_orders (strategy : Strategy) (signal : TradeSignal)
    (pid : String) (o : Oracle) :
    (signal.action = BUY →
      (scheduleStopLossAndTakeProfit strategy signal pid).1.price
          = signal.price * (1 - strategy.parameters.stopLoss / 100)
      ∧ (scheduleStopLossAndTakeProfit strategy signal pid).1.trigger_price
          = some (signal.price * (1 - strategy.parameters.stopLoss / 100))
      ∧ (scheduleStopLossAndTakeProfit strategy signal pid).1.transaction_type = SELL
      ∧ (scheduleStopLossAndTakeProfit strategy signal pid).1.tag = "sl_" ++ pid
      ∧ (scheduleStopLossAndTakeProfit strategy signal pid).2.price
          = signal.price * (1 + strategy.parameters.takeProfit / 100)
      ∧ (scheduleStopLossAndTakeProfit strategy signal pid).2.order_type = "LIMIT"
      ∧ (scheduleStopLossAndTakeProfit strategy signal pid).2.transaction_type = SELL
      ∧ (scheduleStopLossAndTakeProfit strategy signal pid).2.tag = "tp_" ++ pid)
    ∧ (signal.action = SELL →
      (scheduleStopLossAndTakeProfit strategy signal pid).1.price
          = signal.price * (1 + strategy.parameters.stopLoss / 100)
      ∧ (scheduleStopLossAndTakeProfit strategy signal pid).1.trigger_price
          = some (signal.price * (1 + strategy.parameters.stopLoss / 100))
      ∧ (scheduleStopLossAndTakeProfit strategy signal pid).1.transaction_type = BUY
      ∧ (scheduleStopLossAndTakeProfit strategy signal pid).2.price
          = signal.price * (1 - strategy.parameters.takeProfit / 100)
      ∧ (scheduleStopLossAndTakeProfit strategy signal pid).2.transaction_type = BUY)
    ∧ (∀ job : ScheduledSLTP, (executeRealTrade o strategy signal).2.2 = some job →
      (placeOrderDirect o (buildEntryOrder o strategy signal)).success = true
      ∧ job.delayMs = 5000
      ∧ job.slOrder = (scheduleStopLossAndTakeProfit strategy signal
          (placeOrderDirect o (buildEntryOrder o strategy signal)).order_id).1
      ∧ job.tpOrder = (scheduleStopLossAndTakeProfit strategy signal
          (placeOrderDirect o (buildEntryOrder o strategy signal)).order_id).2)
    ∧ ((placeOrderDirect o (buildEntryOrder o strategy signal)).success = false →
      (executeRealTrade o strategy signal).2.2 = none) := by
  refine ⟨fun hb => ?_, fun hs => ?_, fun job hj => ?_, fun hfail => ?_⟩
  · simp [scheduleStopLossAndTakeProfit, hb]
  · simp [scheduleStopLossAndTakeProfit, hs]
  · rw [executeRealTrade] at hj
    by_cases hsucc : (placeOrderDirect o (buildEntryOrder o strategy signal)).success
    · rw [if_pos hsucc] at hj
      dsimp only at hj
      obtain rfl := (Option.some_inj.mp hj).symm
      exact ⟨hsucc, rfl, rfl, rfl⟩
    · rw [if_neg hsucc] at hj
      simp at hj
  · rw [executeRealTrade, if_neg (by rw [hfail]; exact Bool.false_ne_true)]

/-- Witness for C3: a BUY entry at price 20 with stopLoss 2% and
takeProfit 4%, and an acknowledging broker. -/
theorem stopLoss_takeProfit_orders_witness :
    (scheduleStopLossAndTakeProfit
        ⟨"s1", "A", StrategyType.ema_crossover, "TCS.NS", true,
          ⟨9, 21, 14, 30, 70, 20, 50, 1, 20, 2, true, 25, 2, 4⟩, ⟨0, 0, 0, 0, 0⟩, none⟩
        ⟨BUY, 85, 20⟩ "P1").1.price = 20 * (1 - 2 / 100)
    ∧ (scheduleStopLossAndTakeProfit
        ⟨"s1", "A", StrategyType.ema_crossover, "TCS.NS", true,
          ⟨9, 21, 14, 30, 70, 20, 50, 1, 20, 2, true, 25, 2, 4⟩, ⟨0, 0, 0, 0, 0⟩, none⟩
        ⟨BUY, 85, 20⟩ "P1").1.transaction_type = SELL
    ∧ (scheduleStopLossAndTakeProfit
        ⟨"s1", "A", StrategyType.ema_crossover, "TCS.NS", true,
          ⟨9, 21, 14, 30, 70, 20, 50, 1, 20, 2, true, 25, 2, 4⟩, ⟨0, 0, 0, 0, 0⟩, none⟩
        ⟨BUY, 85, 20⟩ "P1").1.tag = "sl_" ++ "P1"
    ∧ (scheduleStopLossAndTakeProfit
        ⟨"s1", "A", StrategyType.ema_crossover, "TCS.NS", true,
          ⟨9, 21, 14, 30, 70, 20, 50, 1, 20, 2, true, 25, 2, 4⟩, ⟨0, 0, 0, 0, 0⟩, none⟩
        ⟨BUY, 85, 20⟩ "P1").2.price = 20 * (1 + 4 / 100)
    ∧ (∀ job : ScheduledSLTP,
        (executeRealTrade ⟨fun _ => some 20, fun _ => false, fun _ => "", fun _ => true, "P1", 0⟩
          ⟨"s1", "A", StrategyType.ema_crossover, "TCS.NS", true,
            ⟨9, 21, 14, 30, 70, 20, 50, 1, 20, 2, true, 25, 2, 4⟩, ⟨0, 0, 0, 0, 0⟩, none⟩
          ⟨BUY, 85, 20⟩).2.2 = some job → job.delayMs = 5000) := by
  have H := stopLoss_takeProfit_orders
    ⟨"s1", "A", StrategyType.ema_crossover, "TCS.NS", true,
      ⟨9, 21, 14, 30, 70, 20, 50, 1, 20, 2, true, 25, 2, 4⟩, ⟨0, 0, 0, 0, 0⟩, none⟩
    ⟨BUY, 85, 20⟩ "P1"
    ⟨fun _ => some 20, fun _ => false, fun _ => "", fun _ => true, "P1", 0⟩
  have hb := H.1 rfl
  exact ⟨hb.1, hb.2.2.1, hb.2.2.2.1, hb.2.2.2.2.1,
    fun job hj => (H.2.2.1 job hj).2.1⟩

/-! ### Branch lemmas for one auto-trading iteration -/


theorem processStrategy_throws (sq : ℚ → ℚ) (o : Oracle) (st : SrvState) (s : Strategy)
    (ht : o.throws s = true) :
    processStrategy sq o st s
      = { st with logs := appendLog st.logs (cycleErrMsg s (o.errMsg s)) } := by
  rw [processStrategy, if_pos ht]

theorem processStrategy_fetch_none (sq : ℚ → ℚ) (o : Oracle) (st : SrvState) (s : Strategy)
    (ht : o.throws s = false) (hf : o.fetch s.symbol = none) :
    processStrategy sq o st s
      = { st with console := st.console ++ [fetchFailMsg s.symbol] } := by
  rw [processStrategy, if_neg (by rw [ht]; exact Bool.false_ne_true), hf]

theorem processStrategy_no_signal (sq : ℚ → ℚ) (o : Oracle) (st : SrvState) (s : Strategy)
    (price : ℚ) (ht : o.throws s = false) (hf : o.fetch s.symbol = some price)
    (hev : evaluateStrategy sq (addToHistoryStore st.priceHistory s.symbol price) s = none) :
    processStrategy sq o st s
      = { st with priceHistory := addToHistoryStore st.priceHistory s.symbol price
                  cache := mapSet st.cache s.symbol price } := by
  rw [processStrategy, if_neg (by rw [ht]; exact Bool.false_ne_true), hf]
  dsimp only
  rw [hev]

theorem processStrategy_low_conf (sq : ℚ → ℚ) (o : Oracle) (st : SrvState) (s : Strategy)
    (price : ℚ) (sg : TradeSignal) (ht : o.throws s = false)
    (hf : o.fetch s.symbol = some price)
    (hev : evaluateStrategy sq (addToHistoryStore st.priceHistory s.symbol price) s = some sg)
    (hc : ¬ sg.confidence ≥ 70) :
    processStrategy sq o st s
      = { st with priceHistory := addToHistoryStore st.priceHistory s.symbol price
                  cache := mapSet st.cache s.symbol price } := by
  rw [processStrategy, if_neg (by rw [ht]; exact Bool.false_ne_true), hf]
  dsimp only
  rw [hev]
  dsimp only
  rw [if_neg hc]

theorem processStrategy_trade (sq : ℚ → ℚ) (o : Oracle) (st : SrvState) (s : Strategy)
    (price : ℚ) (sg : TradeSignal) (ht : o.throws s = false)
    (hf : o.fetch s.symbol = some price)
    (hev : evaluateStrategy sq (addToHistoryStore st.priceHistory s.symbol price) s = some sg)
    (hc : sg.confidence ≥ 70) :
    processStrategy sq o st s
      = { priceHistory := addToHistoryStore st.priceHistory s.symbol price
          cache := mapSet st.cache s.symbol price
          logs := appendLog (appendSignalLog st.logs (signalLogMsg s sg))
            (if (executeRealTrade o s sg).1.success then tradeOkMsg s sg else tradeFailMsg s)
          console := st.console
          orders := st.orders ++ [(executeRealTrade o s sg).2.1]
          scheduled := st.scheduled ++ (executeRealTrade o s sg).2.2.toList } := by
  rw [processStrategy, if_neg (by rw [ht]; exact Bool.false_ne_true), hf]
  dsimp only
  rw [hev]
  dsimp only
  rw [if_pos hc]

theorem executeRealTrade_order (o : Oracle) (s : Strategy) (sg : TradeSignal) :
    (executeRealTrade o s sg).2.1 = buildEntryOrder o s sg := by
  rw [executeRealTrade]
  by_cases hs : (placeOrderDirect o (buildEntryOrder o s sg)).success
  · rw [if_pos hs]
  · rw [if_neg hs]

theorem evaluateStrategy_ne_hold (sq : ℚ → ℚ) (store : List (String × List ℚ))
    (s : Strategy) (sg : TradeSignal)
    (h : evaluateStrategy sq store s = some sg) : sg.action ≠ HOLD := by
  rw [evaluateStrategy] at h
  rcases hm : mapGet store s.symbol with _ | history
  · rw [hm] at h; simp at h
  · rw [hm] at h
    dsimp only at h
    by_cases hl : history.length < 20
    · rw [if_pos hl] at h; simp at h
    · rw [if_neg hl] at h
      set sig : Sig := (match s.stype with
        | StrategyType.ema_crossover => evaluateEMACrossover history s.parameters
        | StrategyType.rsi_oversold => evaluateRSIOversold history s.parameters
        | StrategyType.sma_trend => evaluateSMATrend history s.parameters
        | StrategyType.bollinger_bands => evaluateBollingerBands sq history s.parameters) with hsig
      by_cases hact : sig.action ≠ HOLD
      · rw [if_pos hact] at h
        obtain rfl := (Option.some_inj.mp h).symm
        exact hact
      · rw [if_neg hact] at h
        simp at h


/-- Claim C2: the trading loop never places an entry order for a HOLD or
below-gate signal.  On the scheduled server path, whenever an iteration of
`executeAutoTrading` extends the submitted-orders list, the evaluated
signal was non-HOLD with confidence at least 70, and the submitted order
has `transaction_type` equal to the signal action and quantity equal to
the strategy parameters' quantity.  On the live-loop path, whenever
`executeTrade` submits an order, the signal was non-HOLD with strength at
least 0.6, and the order carries the signal's action and the strategy's
quantity. -/
theorem entryOrder_gating :
    (∀ (sq : ℚ → ℚ) (o : Oracle) (st : SrvState) (s : Strategy),
      (processStrategy sq o st s).orders ≠ st.orders →
      ∃ (price : ℚ) (sg : TradeSignal),
        o.fetch s.symbol = some price
        ∧ evaluateStrategy sq (addToHistoryStore st.priceHistory s.symbol price) s = some sg
        ∧ sg.action ≠ HOLD ∧ sg.confidence ≥ 70
        ∧ (processStrategy sq o st s).orders = st.orders ++ [buildEntryOrder o s sg]
        ∧ (buildEntryOrder o s sg).transaction_type = sg.action
        ∧ (buildEntryOrder o s sg).quantity = s.parameters.quantity)
    ∧ (∀ (strategy? : Option Live.LiveStrategy) (pc ts now : ℕ)
        (sg : Live.TradingSignal) (ord : Order),
        Live.executeTrade strategy? pc ts now sg = some ord →
        sg.action ≠ HOLD ∧ 3 / 5 ≤ sg.strength
        ∧ ∃ strategy, strategy? = some strategy
          ∧ ord.transaction_type = sg.action ∧ ord.quantity = strategy.quantity) := by
  constructor
  · intro sq o st s hne
    by_cases ht : o.throws s = true
    · rw [processStrategy_throws sq o st s ht] at hne
      exact absurd rfl hne
    · have ht' : o.throws s = false := by
        rcases hb : o.throws s with _ | _
        · rfl
        · exact absurd hb ht
      rcases hf : o.fetch s.symbol with _ | price
      · rw [processStrategy_fetch_none sq o st s ht' hf] at hne
        exact absurd rfl hne
      · rcases hev : evaluateStrategy sq (addToHistoryStore st.priceHistory s.symbol price) s
          with _ | sg
        · rw [processStrategy_no_signal sq o st s price ht' hf hev] at hne
          exact absurd rfl hne
        · by_cases hc : sg.confidence ≥ 70
          · refine ⟨price, sg, rfl, hev,
              evaluateStrategy_ne_hold sq _ s sg hev, hc, ?_, rfl, rfl⟩
            rw [processStrategy_trade sq o st s price sg ht' hf hev hc]
            rw [executeRealTrade_order]
          · rw [processStrategy_low_conf sq o st s price sg ht' hf hev hc] at hne
            exact absurd rfl hne
  · intro strategy? pc ts now sg ord h
    rw [Live.executeTrade.eq_def] at h
    by_cases hg : sg.action = HOLD ∨ sg.strength < 3 / 5
    · rw [if_pos hg] at h
      simp at h
    · rw [if_neg hg] at h
      push_neg at hg
      rcases strategy? with _ | strategy
      · simp at h
      · dsimp only at h
        by_cases hp : pc ≥ strategy.maxPositions
        · rw [if_pos hp] at h
          simp at h
        · rw [if_neg hp] at h
          by_cases htm : ts < 30000
          · rw [if_pos htm] at h
            simp at h
          · rw [if_neg htm] at h
            obtain rfl := (Option.some_inj.mp h).symm
            exact ⟨hg.1, hg.2, strategy, rfl, rfl, rfl⟩

/-- Witness for C2: a descending 20-price history drives the RSI strategy
to a BUY at confidence 100 and an order is submitted; a concrete live
signal of strength 4/5 passes the gate. -/
theorem entryOrder_gating_witness :
    (∃ (price : ℚ) (sg : TradeSignal),
      oracleW.fetch strategyW.symbol = some price
      ∧ evaluateStrategy (fun _ => 0)
          (addToHistoryStore stateW.priceHistory strategyW.symbol price) strategyW = some sg
      ∧ sg.action ≠ HOLD ∧ sg.confidence ≥ 70
      ∧ (processStrategy (fun _ => 0) oracleW stateW strategyW).orders
          = stateW.orders ++ [buildEntryOrder oracleW strategyW sg]
      ∧ (buildEntryOrder oracleW strategyW sg).transaction_type = sg.action
      ∧ (buildEntryOrder oracleW strategyW sg).quantity = strategyW.parameters.quantity)
    ∧ (liveSignalW.action ≠ HOLD ∧ 3 / 5 ≤ liveSignalW.strength
      ∧ ∃ strategy, (some liveStrategyW : Option Live.LiveStrategy) = some strategy
        ∧ liveOrderW.transaction_type = liveSignalW.action
        ∧ liveOrderW.quantity = strategy.quantity) := by
  constructor
  · apply entryOrder_gating.1 (fun _ => 0) oracleW stateW strategyW
    have hev : evaluateStrategy (fun _ => 0)
        (addToHistoryStore stateW.priceHistory strategyW.symbol 20) strategyW
        = some ⟨BUY, 100, 20⟩ := by
      norm_num [evaluateStrategy, addToHistoryStore, addToHistory, mapGet, mapSet,
        evaluateRSIOversold, calculateRSI, stateW, strategyW, paramsW, histW]
      exact fun hbad => Action.noConfusion hbad
    rw [processStrategy_trade (fun _ => 0) oracleW stateW strategyW 20 ⟨BUY, 100, 20⟩
      rfl rfl hev (by norm_num)]
    simp [stateW]
  · exact entryOrder_gating.2 (some liveStrategyW) 0 60000 0 liveSignalW liveOrderW
      (by norm_num [Live.executeTrade, liveStrategyW, liveSignalW, liveOrderW]
          exact fun hbad => Action.noConfusion hbad)

/-- A conditional increment grows a vote accumulator by at most one. -/
theorem step_le {c : Prop} [Decidable c] {n m : ℕ} (h : n ≤ m) :
    (if c then n + 1 else n) ≤ m + 1 := by
  split_ifs <;> omega

/-- Each side collects at most five votes: one per source. -/
theorem voteCounts_le (strategy : Live.LiveStrategy) (currentPrice : ℚ)
    (ind : Live.TechnicalIndicators) :
    (Live.voteCounts strategy currentPrice ind).1 ≤ 5
    ∧ (Live.voteCounts strategy currentPrice ind).2 ≤ 5 := by
  rw [Live.voteCounts]
  dsimp only
  constructor
  · exact step_le (step_le (step_le (step_le (step_le (Nat.le_refl 0)))))
  · exact step_le (step_le (step_le (step_le (step_le (Nat.le_refl 0)))))

/-- For a winning count between 3 and 5, `min(votes/5, 1)` is exactly
`votes/5`, one of 3/5, 4/5, 1, and at least 3/5. -/
theorem strength_of_votes (b : ℕ) (h3 : 3 ≤ b) (h5 : b ≤ 5) :
    min ((b : ℚ) / 5) 1 = (b : ℚ) / 5
    ∧ ((b : ℚ) / 5 = 3 / 5 ∨ (b : ℚ) / 5 = 4 / 5 ∨ (b : ℚ) / 5 = 1)
    ∧ 3 / 5 ≤ (b : ℚ) / 5 := by
  interval_cases b <;> norm_num

/-- Claim C10: every BUY or SELL signal emitted by the live-engine
`generateSignal` has strength `winningVotes/5` with the winning side
holding between 3 and 5 votes, so the strength is one of 3/5, 4/5, 1 and
always at least 3/5; consequently the HOLD-or-weak-strength gate at the
top of `executeTrade` (`action = HOLD ∨ strength < 0.6`) is false for
every such signal — the strength check never rejects a non-HOLD signal
produced by `generateSignal`. -/
theorem vote_strength_gate (symbol : String) (strategy? : Option Live.LiveStrategy)
    (currentPrice : ℚ) (ind : Live.TechnicalIndicators)
    (h : (Live.generateSignal symbol strategy? currentPrice ind).action ≠ HOLD) :
    ((Live.generateSignal symbol strategy? currentPrice ind).strength = 3 / 5
      ∨ (Live.generateSignal symbol strategy? currentPrice ind).strength = 4 / 5
      ∨ (Live.generateSignal symbol strategy? currentPrice ind).strength = 1)
    ∧ 3 / 5 ≤ (Live.generateSignal symbol strategy? currentPrice ind).strength
    ∧ ¬ ((Live.generateSignal symbol strategy? currentPrice ind).action = HOLD
        ∨ (Live.generateSignal symbol strategy? currentPrice ind).strength < 3 / 5) := by
  rcases strategy? with _ | strategy
  · exact absurd rfl h
  · rw [Live.generateSignal] at h ⊢
    dsimp only at h ⊢
    by_cases he : strategy.enabled = false
    · rw [if_pos he] at h
      exact absurd rfl h
    · rw [if_neg he] at h ⊢
      have hble := (voteCounts_le strategy currentPrice ind).1
      have hsle := (voteCounts_le strategy currentPrice ind).2
      by_cases h1 : (Live.voteCounts strategy currentPrice ind).1
          > (Live.voteCounts strategy currentPrice ind).2
          ∧ (Live.voteCounts strategy currentPrice ind).1 ≥ 3
      · rw [if_pos h1] at h ⊢
        dsimp only at h ⊢
        have hv := strength_of_votes _ h1.2 hble
        refine ⟨by rw [hv.1]; exact hv.2.1, by rw [hv.1]; exact hv.2.2, ?_⟩
        rintro (hbad | hbad)
        · exact Action.noConfusion hbad
        · rw [hv.1] at hbad
          exact absurd hbad (not_lt.mpr hv.2.2)
      · rw [if_neg h1] at h ⊢
        by_cases h2 : (Live.voteCounts strategy currentPrice ind).2
            > (Live.voteCounts strategy currentPrice ind).1
            ∧ (Live.voteCounts strategy currentPrice ind).2 ≥ 3
        · rw [if_pos h2] at h ⊢
          dsimp only at h ⊢
          have hv := strength_of_votes _ h2.2 hsle
          refine ⟨by rw [hv.1]; exact hv.2.1, by rw [hv.1]; exact hv.2.2, ?_⟩
          rintro (hbad | hbad)
          · exact Action.noConfusion hbad
          · rw [hv.1] at hbad
            exact absurd hbad (not_lt.mpr hv.2.2)
        · rw [if_neg h2] at h
          exact absurd rfl h

/-- Witness for C10: a five-vote BUY snapshot (RSI 10, EMA 2 over 1,
volume ratio 2, price 50 under the lower band 60, positive MACD). -/
theorem vote_strength_gate_witness :
    ((Live.generateSignal "NIFTY" (some liveStrategyW) 50 indicatorsW).strength = 3 / 5
      ∨ (Live.generateSignal "NIFTY" (some liveStrategyW) 50 indicatorsW).strength = 4 / 5
      ∨ (Live.generateSignal "NIFTY" (some liveStrategyW) 50 indicatorsW).strength = 1)
    ∧ 3 / 5 ≤ (Live.generateSignal "NIFTY" (some liveStrategyW) 50 indicatorsW).strength
    ∧ ¬ ((Live.generateSignal "NIFTY" (some liveStrategyW) 50 indicatorsW).action = HOLD
        ∨ (Live.generateSignal "NIFTY" (some liveStrategyW) 50 indicatorsW).strength < 3 / 5) :=
  vote_strength_gate "NIFTY" (some liveStrategyW) 50 indicatorsW
    (by
      have hact : (Live.generateSignal "NIFTY" (some liveStrategyW) 50 indicatorsW).action
          = BUY := by
        norm_num [Live.generateSignal, Live.voteCounts, liveStrategyW, indicatorsW]
      rw [hact]
      exact fun hbad => Action.noConfusion hbad)

/-- One iteration maps states agreeing outside the console trace to states
agreeing outside the console trace. -/
theorem processStrategy_exceptConsole_congr (sq : ℚ → ℚ) (o : Oracle) (s : Strategy)
    (st₁ st₂ : SrvState) (h : exceptConsole st₁ = exceptConsole st₂) :
    exceptConsole (processStrategy sq o st₁ s)
      = exceptConsole (processStrategy sq o st₂ s) := by
  obtain ⟨ph₁, c₁, l₁, con₁, or₁, sc₁⟩ := st₁
  obtain ⟨ph₂, c₂, l₂, con₂, or₂, sc₂⟩ := st₂
  rw [exceptConsole, exceptConsole] at h
  dsimp only at h
  obtain ⟨h1, h2, h3, h4, h5⟩ : ph₁ = ph₂ ∧ c₁ = c₂ ∧ l₁ = l₂ ∧ or₁ = or₂ ∧ sc₁ = sc₂ := by
    simpa using h
  subst h1
  subst h2
  subst h3
  subst h4
  subst h5
  by_cases ht : o.throws s = true
  · rw [processStrategy_throws _ _ _ _ ht, processStrategy_throws _ _ _ _ ht]
    rfl
  · have ht' : o.throws s = false := by
      rcases hb : o.throws s with _ | _
      · rfl
      · exact absurd hb ht
    rcases hf : o.fetch s.symbol with _ | price
    · rw [processStrategy_fetch_none _ _ _ _ ht' hf,
        processStrategy_fetch_none _ _ _ _ ht' hf]
      rfl
    · rcases hev : evaluateStrategy sq (addToHistoryStore ph₁ s.symbol price) s with _ | sg
      · rw [processStrategy_no_signal _ _ _ _ _ ht' hf hev,
          processStrategy_no_signal _ _ _ _ _ ht' hf hev]
        rfl
      · by_cases hc : sg.confidence ≥ 70
        · rw [processStrategy_trade _ _ _ _ _ _ ht' hf hev hc,
            processStrategy_trade _ _ _ _ _ _ ht' hf hev hc]
          rfl
        · rw [processStrategy_low_conf _ _ _ _ _ _ ht' hf hev hc,
            processStrategy_low_conf _ _ _ _ _ _ ht' hf hev hc]
          rfl

/-- One iteration maps states agreeing on the core (history, cache,
orders, scheduled jobs) to states agreeing on the core: the decision to
place an order never reads the log traces. -/
theorem processStrategy_coreOf_congr (sq : ℚ → ℚ) (o : Oracle) (s : Strategy)
    (st₁ st₂ : SrvState) (h : coreOf st₁ = coreOf st₂) :
    coreOf (processStrategy sq o st₁ s) = coreOf (processStrategy sq o st₂ s) := by
  obtain ⟨ph₁, c₁, l₁, con₁, or₁, sc₁⟩ := st₁
  obtain ⟨ph₂, c₂, l₂, con₂, or₂, sc₂⟩ := st₂
  rw [coreOf, coreOf] at h
  dsimp only at h
  obtain ⟨h1, h2, h3, h4⟩ : ph₁ = ph₂ ∧ c₁ = c₂ ∧ or₁ = or₂ ∧ sc₁ = sc₂ := by
    simpa using h
  subst h1
  subst h2
  subst h3
  subst h4
  by_cases ht : o.throws s = true
  · rw [processStrategy_throws _ _ _ _ ht, processStrategy_throws _ _ _ _ ht]
    rfl
  · have ht' : o.throws s = false := by
      rcases hb : o.throws s with _ | _
      · rfl
      · exact absurd hb ht
    rcases hf : o.fetch s.symbol with _ | price
    · rw [processStrategy_fetch_none _ _ _ _ ht' hf,
        processStrategy_fetch_none _ _ _ _ ht' hf]
      rfl
    · rcases hev : evaluateStrategy sq (addToHistoryStore ph₁ s.symbol price) s with _ | sg
      · rw [processStrategy_no_signal _ _ _ _ _ ht' hf hev,
          processStrategy_no_signal _ _ _ _ _ ht' hf hev]
        rfl
      · by_cases hc : sg.confidence ≥ 70
        · rw [processStrategy_trade _ _ _ _ _ _ ht' hf hev hc,
            processStrategy_trade _ _ _ _ _ _ ht' hf hev hc]
          rfl
        · rw [processStrategy_low_conf _ _ _ _ _ _ ht' hf hev hc,
            processStrategy_low_conf _ _ _ _ _ _ ht' hf hev hc]
          rfl

/-- The fold over a strategy list preserves agreement outside the console. -/
theorem foldl_exceptConsole_congr (sq : ℚ → ℚ) (o : Oracle) (l : List Strategy) :
    ∀ st₁ st₂ : SrvState, exceptConsole st₁ = exceptConsole st₂ →
    exceptConsole (l.foldl (processStrategy sq o) st₁)
      = exceptConsole (l.foldl (processStrategy sq o) st₂) := by
  induction l with
  | nil => intro st₁ st₂ h; simpa using h
  | cons s l ih =>
    intro st₁ st₂ h
    rw [List.foldl_cons, List.foldl_cons]
    exact ih _ _ (processStrategy_exceptConsole_congr sq o s st₁ st₂ h)

/-- The fold over a strategy list preserves agreement on the core. -/
theorem foldl_coreOf_congr (sq : ℚ → ℚ) (o : Oracle) (l : List Strategy) :
    ∀ st₁ st₂ : SrvState, coreOf st₁ = coreOf st₂ →
    coreOf (l.foldl (processStrategy sq o) st₁)
      = coreOf (l.foldl (processStrategy sq o) st₂) := by
  induction l with
  | nil => intro st₁ st₂ h; simpa using h
  | cons s l ih =>
    intro st₁ st₂ h
    rw [List.foldl_cons, List.foldl_cons]
    exact ih _ _ (processStrategy_coreOf_congr sq o s st₁ st₂ h)

/-- Claim C8: within one auto-trading cycle, a failed fetch
(`fetchMarketData` returning null) leaves the whole state unchanged except
for the console error entry — no order, no log, no history update — and an
exception in one strategy's body degrades to exactly one error log entry;
removing such a failing strategy from the cycle changes nothing else:
with a failed fetch the rest of the cycle's state (everything but the
console) is identical to the cycle without it, and with an exception the
core (history, cache, orders, scheduled jobs) is identical to the cycle
without it — every other enabled strategy is processed the same way, and
the cycle, a total fold, never aborts. -/
theorem cycle_failure_isolation :
    (∀ (sq : ℚ → ℚ) (o : Oracle) (st : SrvState) (s : Strategy),
      o.throws s = false → o.fetch s.symbol = none →
      processStrategy sq o st s
        = { st with console := st.console ++ [fetchFailMsg s.symbol] }
      ∧ (processStrategy sq o st s).orders = st.orders
      ∧ (processStrategy sq o st s).logs = st.logs)
    ∧ (∀ (sq : ℚ → ℚ) (o : Oracle) (st : SrvState) (s : Strategy), o.throws s = true →
      processStrategy sq o st s
        = { st with logs := appendLog st.logs (cycleErrMsg s (o.errMsg s)) }
      ∧ (processStrategy sq o st s).orders = st.orders)
    ∧ (∀ (sq : ℚ → ℚ) (o : Oracle) (st : SrvState) (pre post : List Strategy)
        (bad : Strategy), bad.enabled = true → o.throws bad = false →
        o.fetch bad.symbol = none →
      exceptConsole (executeAutoTradingCycle sq o true st (pre ++ bad :: post))
        = exceptConsole (executeAutoTradingCycle sq o true st (pre ++ post)))
    ∧ (∀ (sq : ℚ → ℚ) (o : Oracle) (st : SrvState) (pre post : List Strategy)
        (bad : Strategy), bad.enabled = true → o.throws bad = true →
      coreOf (executeAutoTradingCycle sq o true st (pre ++ bad :: post))
        = coreOf (executeAutoTradingCycle sq o true st (pre ++ post))) := by
  refine ⟨fun sq o st s ht hf => ?_, fun sq o st s ht => ?_,
    fun sq o st pre post bad hen ht hf => ?_, fun sq o st pre post bad hen ht => ?_⟩
  · rw [processStrategy_fetch_none sq o st s ht hf]
    exact ⟨rfl, rfl, rfl⟩
  · rw [processStrategy_throws sq o st s ht]
    exact ⟨rfl, rfl⟩
  · rw [executeAutoTradingCycle, executeAutoTradingCycle, if_pos rfl, if_pos rfl]
    rw [List.filter_append, List.filter_append, List.filter_cons]
    rw [if_pos hen]
    rw [List.foldl_append, List.foldl_append, List.foldl_cons]
    apply foldl_exceptConsole_congr
    rw [processStrategy_fetch_none sq o _ bad ht hf]
    rfl
  · rw [executeAutoTradingCycle, executeAutoTradingCycle, if_pos rfl, if_pos rfl]
    rw [List.filter_append, List.filter_append, List.filter_cons]
    rw [if_pos hen]
    rw [List.foldl_append, List.foldl_append, List.foldl_cons]
    apply foldl_coreOf_congr
    rw [processStrategy_throws sq o _ bad ht]
    rfl

/-- Witness for C8: a cycle over a failing strategy (symbol "BAD", fetch
returns none) followed by the RSI strategy, and a cycle where the first
strategy's body throws. -/
theorem cycle_failure_isolation_witness :
    processStrategy (fun _ => 0) oracleMixW stateW strategyBadW
      = { stateW with console := stateW.console ++ [fetchFailMsg strategyBadW.symbol] }
    ∧ exceptConsole (executeAutoTradingCycle (fun _ => 0) oracleMixW true stateW
        ([] ++ strategyBadW :: [strategyW]))
      = exceptConsole (executeAutoTradingCycle (fun _ => 0) oracleMixW true stateW
        ([] ++ [strategyW]))
    ∧ coreOf (executeAutoTradingCycle (fun _ => 0) oracleThrowW true stateW
        ([] ++ strategyBadW :: [strategyW]))
      = coreOf (executeAutoTradingCycle (fun _ => 0) oracleThrowW true stateW
        ([] ++ [strategyW])) := by
  refine ⟨?_, ?_, ?_⟩
  · exact (cycle_failure_isolation.1 (fun _ => 0) oracleMixW stateW strategyBadW rfl
      (by simp [oracleMixW, strategyBadW])).1
  · exact cycle_failure_isolation.2.2.1 (fun _ => 0) oracleMixW stateW [] [strategyW]
      strategyBadW rfl rfl (by simp [oracleMixW, strategyBadW])
  · exact cycle_failure_isolation.2.2.2 (fun _ => 0) oracleThrowW stateW [] [strategyW]
      strategyBadW rfl (by simp [oracleThrowW, strategyBadW])

end TradingApp
